import Mathlib

set_option linter.unusedVariables false

/-!
Shallow embedding of `src/main.py`, the DocumentCloud "Table Extractor"
add-on (class `TableExtractor`).  Python integers are modelled as `Int`,
Python `dict.get` of a possibly-absent key as `Option`, a raised exception
as `Except.error` / a dedicated outcome constructor, and `sys.exit(0)`
after `set_message` as an `exited` outcome carrying the message.  The two
external collaborators (the DocumentCloud host platform and the Azure
analyzer) are modelled as oracle fields of the environment; the calls made
to them are recorded in an event trace.
-/

/-- A DocumentCloud document as the add-on sees it: an id and a page count. -/
structure Document where
  id : Nat
  page_count : Int
  deriving Repr, DecidableEq

/-- The add-on's `self.data` dictionary: the three configuration keys the
code reads, each possibly absent. -/
structure AddOnData where
  output_format : Option String := none
  start_page : Option Int := none
  end_page : Option Int := none
  deriving Repr, DecidableEq

/-- Message of the Python `TypeError` raised when the absent `end_page`
(`None`) is compared with an int in `end_page <= doc.page_count`. -/
def noneCompareError : String :=
  "TypeError: not supported between instances of NoneType and int"

/-- One iteration of the `for doc in documents` loop of `calculate_cost`
(src/main.py lines 19-28): read `start_page` (default 1) and `end_page`
(no default!) from the data, clamp `end_page` to the document's page count,
and accumulate `last_page - start_page + 1`. -/
def costStep (data : AddOnData) (total : Int) (doc : Document) : Except String Int :=
  let start_page := data.start_page.getD 1
  match data.end_page with
  | none => .error noneCompareError
  | some end_page =>
    let last_page := if end_page ≤ doc.page_count then end_page else doc.page_count
    .ok (total + (last_page - start_page + 1))

/-- `TableExtractor.calculate_cost` (src/main.py lines 16-31): sum the
clamped page counts over the documents and multiply by 7.  The loop is a
monadic fold because an iteration faults when `end_page` is absent. -/
def calculate_cost (data : AddOnData) (documents : List Document) : Except String Int := do
  let total_num_pages ← documents.foldlM (costStep data) 0
  return total_num_pages * 7

/-- The clamped page contribution of one document, written with `min` as the
spec does. -/
def clampedPages (sp ep : Int) (doc : Document) : Int :=
  min ep doc.page_count - sp + 1

theorem costStep_some (data : AddOnData) (ep : Int) (he : data.end_page = some ep)
    (total : Int) (doc : Document) :
    costStep data total doc = .ok (total + clampedPages (data.start_page.getD 1) ep doc) := by
  simp only [costStep, he, clampedPages]
  rcases le_or_lt ep doc.page_count with h | h
  · rw [if_pos h, min_eq_left h]
  · rw [if_neg (not_le.mpr h), min_eq_right h.le]

theorem costStep_foldlM (data : AddOnData) (ep : Int) (he : data.end_page = some ep) :
    ∀ (docs : List Document) (t : Int),
      docs.foldlM (costStep data) t =
        .ok (t + (docs.map (clampedPages (data.start_page.getD 1) ep)).sum) := by
  intro docs
  induction docs with
  | nil => intro t; simp [List.foldlM, pure, Except.pure]
  | cons d ds ih =>
      intro t
      rw [List.foldlM_cons, costStep_some data ep he]
      simp only [bind, Except.bind, ih, List.map_cons, List.sum_cons]
      congr 1
      ring

theorem calculate_cost_ok (data : AddOnData) (docs : List Document) (ep : Int)
    (he : data.end_page = some ep) :
    calculate_cost data docs =
      .ok (7 * (docs.map (clampedPages (data.start_page.getD 1) ep)).sum) := by
  simp only [calculate_cost, bind, Except.bind, costStep_foldlM data ep he docs 0, zero_add,
    pure, Except.pure]
  congr 1
  ring

/-- One cell of a table in the Azure analyzer's result (`cell.row_index`,
`cell.column_index`, `cell.text` are the attributes the code reads). -/
structure ACell where
  row_index : Int
  column_index : Int
  text : String
  deriving Repr, DecidableEq

/-- One table of the Azure analyzer's result (`table.page_number`,
`table.cells`). -/
structure ATable where
  page_number : Int
  cells : List ACell
  deriving Repr, DecidableEq

/-- The Azure analyzer's `poller.result()`: the `result.tables` attribute. -/
structure AnalyzeResult where
  tables : List ATable
  deriving Repr, DecidableEq

/-- The `cell_info` dictionary built by `get_table_data`
(src/main.py lines 69-73). -/
structure CellInfo where
  row_index : Int
  column_index : Int
  content : String
  deriving Repr, DecidableEq

/-- The `table_info` dictionary built by `get_table_data`
(src/main.py lines 62-65). -/
structure TableInfo where
  page_number : Int
  cells : List CellInfo
  deriving Repr, DecidableEq

/-- `TableExtractor.get_table_data` (src/main.py lines 57-79), with the
Python `append`-in-a-loop pattern rendered as a left fold that appends. -/
def get_table_data (result : AnalyzeResult) : List TableInfo :=
  result.tables.foldl
    (fun table_data table =>
      table_data ++
        [⟨table.page_number,
          table.cells.foldl
            (fun cells cell => cells ++ [⟨cell.row_index, cell.column_index, cell.text⟩])
            []⟩])
    []

/-- A Python value appearing in a CSV row built by `convert_to_csv`: the
first three entries are ints, the last is a string.  `csv.writer` later
stringifies each value. -/
inductive PyVal where
  | int (i : Int)
  | str (s : String)
  deriving Repr, DecidableEq

/-- `TableExtractor.convert_to_csv` (src/main.py lines 81-92): one row
`[page_number, row_index, column_index, content]` appended per cell. -/
def convert_to_csv (table_data : List TableInfo) : List (List PyVal) :=
  table_data.foldl
    (fun csv_data table_info =>
      table_info.cells.foldl
        (fun csv_data cell =>
          csv_data ++
            [[PyVal.int table_info.page_number, PyVal.int cell.row_index,
              PyVal.int cell.column_index, PyVal.str cell.content]])
        csv_data)
    []

/-- The row `convert_to_csv` emits for one cell of one table. -/
def cellRow (table_info : TableInfo) (cell : CellInfo) : List PyVal :=
  [PyVal.int table_info.page_number, PyVal.int cell.row_index,
    PyVal.int cell.column_index, PyVal.str cell.content]

theorem foldl_append_eq_map {α β : Type} (f : α → β) :
    ∀ (l : List α) (acc : List β),
      l.foldl (fun a x => a ++ [f x]) acc = acc ++ l.map f := by
  intro l
  induction l with
  | nil => intro acc; simp
  | cons x xs ih => intro acc; simp [ih]

theorem convert_to_csv_foldl (table_data : List TableInfo) :
    ∀ acc : List (List PyVal),
      table_data.foldl
          (fun csv_data table_info =>
            table_info.cells.foldl
              (fun csv_data cell => csv_data ++ [cellRow table_info cell])
              csv_data)
          acc =
        acc ++ table_data.flatMap (fun t => t.cells.map (cellRow t)) := by
  induction table_data with
  | nil => intro acc; simp
  | cons t ts ih =>
      intro acc
      rw [List.foldl_cons, foldl_append_eq_map, ih, List.flatMap_cons, List.append_assoc]

theorem convert_to_csv_eq_flatMap (table_data : List TableInfo) :
    convert_to_csv table_data =
      table_data.flatMap (fun t => t.cells.map (cellRow t)) := by
  have h := convert_to_csv_foldl table_data []
  simpa [convert_to_csv, cellRow] using h

theorem get_table_data_eq_map (result : AnalyzeResult) :
    get_table_data result =
      result.tables.map (fun table =>
        ⟨table.page_number,
          table.cells.map (fun cell => ⟨cell.row_index, cell.column_index, cell.text⟩)⟩) := by
  simp only [get_table_data, foldl_append_eq_map, List.nil_append]

/-- A JSON value, as produced by Python's `json.dumps` / consumed by
`json.loads`; object fields are kept in insertion order, as `json.dumps`
serialises them. -/
inductive Json where
  | num (i : Int)
  | str (s : String)
  | arr (elems : List Json)
  | obj (fields : List (String × Json))

/-- JSON encoding of one `cell_info` dictionary, with the key order of
src/main.py lines 69-73. -/
def cellToJson (c : CellInfo) : Json :=
  .obj [("row_index", .num c.row_index), ("column_index", .num c.column_index),
    ("content", .str c.content)]

/-- JSON encoding of one `table_info` dictionary, with the key order of
src/main.py lines 62-65. -/
def tableToJson (t : TableInfo) : Json :=
  .obj [("page_number", .num t.page_number), ("cells", .arr (t.cells.map cellToJson))]

/-- JSON encoding of the accumulated `table_data` list: what
`json.dumps(table_data, indent=4)` serialises (src/main.py line 136). -/
def tableDataToJson (table_data : List TableInfo) : Json :=
  .arr (table_data.map tableToJson)

/-- Decoder for one cell dictionary (inverse direction of `json.loads`). -/
def jsonToCell : Json → Option CellInfo
  | .obj [("row_index", .num r), ("column_index", .num c), ("content", .str s)] =>
      some ⟨r, c, s⟩
  | _ => none

/-- Decoder for one table dictionary. -/
def jsonToTable : Json → Option TableInfo
  | .obj [("page_number", .num p), ("cells", .arr cells)] =>
      (cells.mapM jsonToCell).map (fun cs => ⟨p, cs⟩)
  | _ => none

/-- Decoder for the whole `tables-{id}.json` payload. -/
def jsonToTableData : Json → Option (List TableInfo)
  | .arr tables => tables.mapM jsonToTable
  | _ => none

theorem jsonToCell_cellToJson (c : CellInfo) : jsonToCell (cellToJson c) = some c := rfl

theorem mapM_jsonToCell (cells : List CellInfo) :
    (cells.map cellToJson).mapM jsonToCell = some cells := by
  induction cells with
  | nil => rfl
  | cons c cs ih =>
      rw [List.map_cons, List.mapM_cons, jsonToCell_cellToJson, ih]
      rfl

theorem jsonToTable_tableToJson (t : TableInfo) : jsonToTable (tableToJson t) = some t := by
  simp only [tableToJson, jsonToTable, mapM_jsonToCell]
  rfl

theorem mapM_jsonToTable (tables : List TableInfo) :
    (tables.map tableToJson).mapM jsonToTable = some tables := by
  induction tables with
  | nil => rfl
  | cons t ts ih =>
      rw [List.map_cons, List.mapM_cons, jsonToTable_tableToJson, ih]
      rfl

/-- Stringification applied by `csv.writer` to each value of a row:
`str(value)`, i.e. the decimal representation for ints and the string
itself for strings. -/
def pyStr : PyVal → String
  | .int i => Int.repr i
  | .str s => s

/-- The header row written at src/main.py line 145. -/
def csvHeader : List String :=
  ["Page Number", "Row Index", "Column Index", "Content"]

/-- A row as it ends up in the CSV file: every value stringified. -/
def renderRow (row : List PyVal) : List String :=
  row.map pyStr

/-- Effect of one execution of the CSV branch (src/main.py lines 140-147)
on the rows of `tables-{id}.csv`: the file is opened in append mode, the
header is written only when `csv_file.tell() == 0` (the file is empty), and
then the rows of `convert_to_csv` are appended. -/
def csvAppend (existing : List (List String)) (table_data : List TableInfo) :
    List (List String) :=
  (existing ++ if existing.isEmpty then [csvHeader] else []) ++
    (convert_to_csv table_data).map renderRow

/-- Python's `range(start, stop)` over (mathematical) integers. -/
def pyRange (start stop : Int) : List Int :=
  (List.range (stop - start).toNat).map (fun (i : Nat) => start + (i : Int))

/-- The pages the `for page_number in range(start_page, outer_bound)` loop
of `main` visits for one document (src/main.py lines 124-127). -/
def docPages (start_page end_page : Int) (document : Document) : List Int :=
  let outer_bound :=
    if end_page > document.page_count then document.page_count + 1 else end_page + 1
  pyRange start_page outer_bound

/-- An observable call to an external collaborator: the credit charge of
`validate`, or one per-page submission to the Azure analyzer. -/
inductive Event where
  | chargeCredits (amount : Int)
  | analyzePage (docId : Nat) (page : Int)
  deriving Repr, DecidableEq

/-- Outcome of the host platform's `charge_credits` call: success, a
`ValueError` (insufficient funds), or an `APIError`. -/
inductive ChargeOutcome where
  | ok
  | valueError
  | apiError
  deriving Repr, DecidableEq

/-- Content of an output file: the JSON document of a `tables-{id}.json`
write, or the accumulated rows of a `tables-{id}.csv` file. -/
inductive FileContent where
  | jsonFile (j : Json)
  | csvFile (rows : List (List String))

/-- The output directory: an association list from file name to content. -/
def Fs : Type := List (String × FileContent)

/-- Look up a file by name. -/
def fsGet (fs : Fs) (name : String) : Option FileContent :=
  match fs with
  | [] => none
  | (n, c) :: rest => if n = name then some c else fsGet rest name

/-- Create or overwrite a file. -/
def fsSet (fs : Fs) (name : String) (c : FileContent) : Fs :=
  match fs with
  | [] => [(name, c)]
  | (n, c₀) :: rest => if n = name then (n, c) :: rest else (n, c₀) :: fsSet rest name c

/-- The rows currently in a CSV file, an absent file reading as empty
(opening with mode `"a"` creates it). -/
def csvRows (fs : Fs) (name : String) : List (List String) :=
  match fsGet fs name with
  | some (.csvFile rows) => rows
  | _ => []

/-- Everything `TableExtractor` interacts with: `self.data`, the host
platform (document count, organization id, documents, charge outcome per
amount) and the Azure analyzer (analysis result per document id and page),
plus the initial state of the output directory. -/
structure MainEnv where
  data : AddOnData
  document_count : Option Nat
  org_id : Option Nat
  documents : List Document
  charge : Int → ChargeOutcome
  analyzer : Nat → Int → AnalyzeResult
  fs : Fs

/-- Truthiness test of `if not self.org_id:` — `None` and `0` are falsy. -/
def orgFalsy : Option Nat → Bool
  | none => true
  | some n => n == 0

/-- How a call of `validate` ends: a normal `return`, a `sys.exit(0)` after
`set_message(msg)`, or an uncaught exception. -/
inductive ValidateResult where
  | returns (b : Bool)
  | exits (msg : String)
  | raises (err : String)
  deriving Repr, DecidableEq

/-- Message set at src/main.py lines 38-41. -/
def noDocsMsg : String :=
  "It looks like no documents were selected. Search for some or select them and run again."

/-- Message set at src/main.py line 44. -/
def noOrgMsg : String := "No organization to charge."

/-- Message set at src/main.py lines 101-103. -/
def insufficientCreditsMsg : String :=
  "You do not have sufficient AI credits to run this Add-On on this document set"

/-- Message set at src/main.py line 107. -/
def endBeforeStartMsg : String :=
  "The end page you provided is smaller than the start page, try again"

/-- Message set at src/main.py line 110. -/
def startBelowOneMsg : String :=
  "Your start page is less than 1, please try again"

/-- `TableExtractor.validate` (src/main.py lines 34-55), returning the list
of external charge calls it makes together with how it ends. -/
def validate (env : MainEnv) : List Event × ValidateResult :=
  if env.document_count.isNone then
    ([], .exits noDocsMsg)
  else if orgFalsy env.org_id then
    ([], .exits noOrgMsg)
  else
    match calculate_cost env.data env.documents with
    | .error e => ([], .raises e)
    | .ok ai_credit_cost =>
      match env.charge ai_credit_cost with
      | .valueError => ([.chargeCredits ai_credit_cost], .returns false)
      | .apiError => ([.chargeCredits ai_credit_cost], .returns false)
      | .ok => ([.chargeCredits ai_credit_cost], .returns true)

/-- How a run of `main` ends: normal completion, a `sys.exit(0)` after a
user-facing `set_message`, or an uncaught exception. -/
inductive Outcome where
  | completed
  | exited (msg : String)
  | raised (err : String)
  deriving Repr, DecidableEq

/-- The body of the `for document in self.get_documents():` loop of `main`
(src/main.py lines 122-147): analyze the pages of the clamped range, then
write the document's output file.  The first component accumulates the
trace of external calls, the second the output directory. -/
def processDocument (env : MainEnv) (output_format : String) (start_page end_page : Int)
    (st : List Event × Fs) (document : Document) : List Event × Fs :=
  let pages := docPages start_page end_page document
  let table_data := pages.flatMap (fun p => get_table_data (env.analyzer document.id p))
  let trace := st.1 ++ pages.map (fun p => Event.analyzePage document.id p)
  let fs₁ :=
    if output_format = "json" then
      fsSet st.2 ("tables-" ++ toString document.id ++ ".json")
        (.jsonFile (tableDataToJson table_data))
    else st.2
  let fs₂ :=
    if output_format = "csv" then
      let name := "tables-" ++ toString document.id ++ ".csv"
      fsSet fs₁ name (.csvFile (csvAppend (csvRows fs₁ name) table_data))
    else fs₁
  (trace, fs₂)

/-- `TableExtractor.main` (src/main.py lines 94-147): read the
configuration, validate (which charges), check the page range, then process
every document.  Returns the trace of external calls, the final output
directory, and how the run ended. -/
def TableExtractor.main (env : MainEnv) : (List Event × Fs) × Outcome :=
  let output_format := env.data.output_format.getD "json"
  let start_page := env.data.start_page.getD 1
  let end_page := env.data.end_page.getD 1
  match validate env with
  | (vtrace, .exits m) => ((vtrace, env.fs), .exited m)
  | (vtrace, .raises e) => ((vtrace, env.fs), .raised e)
  | (vtrace, .returns false) => ((vtrace, env.fs), .exited insufficientCreditsMsg)
  | (vtrace, .returns true) =>
    if end_page < start_page then
      ((vtrace, env.fs), .exited endBeforeStartMsg)
    else if start_page < 1 then
      ((vtrace, env.fs), .exited startBelowOneMsg)
    else
      (env.documents.foldl (processDocument env output_format start_page end_page)
        (vtrace, env.fs), .completed)

/-- The analyzer submissions of a trace, as (document id, page) pairs in
order. -/
def analyzeEvents (trace : List Event) : List (Nat × Int) :=
  trace.filterMap (fun e =>
    match e with
    | .analyzePage i p => some (i, p)
    | _ => none)

theorem digitChar_isDigit : ∀ m, m < 10 → (Nat.digitChar m).isDigit = true := by decide

theorem toDigitsCore_digits :
    ∀ (fuel n : Nat) (acc : List Char), (∀ c ∈ acc, c.isDigit = true) →
      ∀ c ∈ Nat.toDigitsCore 10 fuel n acc, c.isDigit = true := by
  intro fuel
  induction fuel with
  | zero => intro n acc hacc c hc; exact hacc c hc
  | succ fuel ih =>
      intro n acc hacc c hc
      have hmem : ∀ x ∈ Nat.digitChar (n % 10) :: acc, x.isDigit = true := by
        intro x hx
        rcases List.mem_cons.mp hx with h | h
        · rw [h]; exact digitChar_isDigit _ (Nat.mod_lt _ (by decide))
        · exact hacc x h
      simp only [Nat.toDigitsCore] at hc
      split at hc
      · exact hmem c hc
      · exact ih _ _ hmem c hc

theorem nat_repr_all_digits (n : Nat) : ∀ c ∈ (Nat.repr n).data, c.isDigit = true := by
  intro c hc
  rw [show (Nat.repr n).data = Nat.toDigits 10 n by simp [Nat.repr, List.asString]] at hc
  exact toDigitsCore_digits (n + 1) n [] (by intro x hx; cases hx) c hc

theorem nat_repr_ne_header (n : Nat) : Nat.repr n ≠ "Page Number" := by
  intro h
  have hP : 'P' ∈ (Nat.repr n).data := by rw [h]; decide
  exact absurd (nat_repr_all_digits n 'P' hP) (by decide)

theorem int_repr_ne_header (i : Int) : Int.repr i ≠ "Page Number" := by
  cases i with
  | ofNat m => exact nat_repr_ne_header m
  | negSucc m =>
      intro h
      have h1 : "Page Number".data.head? = some '-' := by
        rw [← h]
        show ((("-" : String) ++ Nat.repr (m + 1)).data).head? = some '-'
        rw [String.data_append]
        rfl
      exact absurd h1 (by decide)

theorem mem_pyRange (a b p : Int) : p ∈ pyRange a b ↔ a ≤ p ∧ p < b := by
  unfold pyRange
  simp only [List.mem_map, List.mem_range]
  constructor
  · rintro ⟨i, hi, rfl⟩; omega
  · intro h; exact ⟨(p - a).toNat, by omega, by omega⟩

theorem pyRange_pairwise (a b : Int) : (pyRange a b).Pairwise (· < ·) := by
  unfold pyRange
  exact (List.pairwise_lt_range _).map _ (by intro i j hij; omega)

theorem pyRange_nodup (a b : Int) : (pyRange a b).Nodup :=
  (pyRange_pairwise a b).imp ne_of_lt

theorem pyRange_empty (a b : Int) (h : b ≤ a) : pyRange a b = [] := by
  unfold pyRange
  rw [show (b - a).toNat = 0 by omega, List.range_zero, List.map_nil]

theorem docPages_eq (sp ep : Int) (d : Document) :
    docPages sp ep d = pyRange sp (min ep d.page_count + 1) := by
  unfold docPages
  rcases le_or_lt ep d.page_count with h | h
  · rw [if_neg (not_lt.mpr h), min_eq_left h]
  · rw [if_pos h, min_eq_right h.le]

theorem mem_docPages (sp ep p : Int) (d : Document) :
    p ∈ docPages sp ep d ↔ sp ≤ p ∧ p ≤ min ep d.page_count := by
  rw [docPages_eq, mem_pyRange]
  omega

theorem docPages_pairwise (sp ep : Int) (d : Document) :
    (docPages sp ep d).Pairwise (· < ·) := by
  rw [docPages_eq]; exact pyRange_pairwise _ _

theorem docPages_empty (sp ep : Int) (d : Document) (h : min ep d.page_count < sp) :
    docPages sp ep d = [] := by
  rw [docPages_eq]
  exact pyRange_empty _ _ (by omega)

theorem processDocument_fst (env : MainEnv) (fmt : String) (sp ep : Int)
    (st : List Event × Fs) (d : Document) :
    (processDocument env fmt sp ep st d).1 =
      st.1 ++ (docPages sp ep d).map (fun p => Event.analyzePage d.id p) := rfl

theorem foldl_processDocument_fst (env : MainEnv) (fmt : String) (sp ep : Int) :
    ∀ (docs : List Document) (st : List Event × Fs),
      (docs.foldl (processDocument env fmt sp ep) st).1 =
        st.1 ++ docs.flatMap (fun d => (docPages sp ep d).map (fun p => Event.analyzePage d.id p)) := by
  intro docs
  induction docs with
  | nil => intro st; simp
  | cons d ds ih =>
      intro st
      rw [List.foldl_cons, ih, processDocument_fst, List.flatMap_cons, List.append_assoc]

theorem analyzeEvents_append (a b : List Event) :
    analyzeEvents (a ++ b) = analyzeEvents a ++ analyzeEvents b := by
  simp [analyzeEvents, List.filterMap_append]

theorem analyzeEvents_map_analyze (i : Nat) (ps : List Int) :
    analyzeEvents (ps.map (fun p => Event.analyzePage i p)) = ps.map (fun p => (i, p)) := by
  induction ps with
  | nil => rfl
  | cons p ps ih => simp [analyzeEvents, List.filterMap_cons] at ih ⊢; exact ih

theorem analyzeEvents_charge (c : Int) (rest : List Event) :
    analyzeEvents (Event.chargeCredits c :: rest) = analyzeEvents rest := rfl

theorem analyzeEvents_validate (env : MainEnv) : analyzeEvents (validate env).1 = [] := by
  unfold validate
  split
  · rfl
  · split
    · rfl
    · split
      · rfl
      · split <;> rfl

theorem validate_reached (env : MainEnv) (c : Int)
    (hdc : env.document_count ≠ none)
    (horg : orgFalsy env.org_id = false)
    (hcost : calculate_cost env.data env.documents = .ok c) :
    validate env =
      ([.chargeCredits c],
        match env.charge c with
        | .ok => .returns true
        | .valueError => .returns false
        | .apiError => .returns false) := by
  have h1 : env.document_count.isNone = false := by
    rcases h : env.document_count with _ | v
    · exact absurd h hdc
    · rfl
  rcases hch : env.charge c with _ | _ | _ <;>
    simp [validate, h1, horg, hcost, hch]

theorem main_validate_true (env : MainEnv) (c : Int)
    (hv : validate env = ([.chargeCredits c], .returns true)) :
    TableExtractor.main env =
      if env.data.end_page.getD 1 < env.data.start_page.getD 1 then
        (([.chargeCredits c], env.fs), .exited endBeforeStartMsg)
      else if env.data.start_page.getD 1 < 1 then
        (([.chargeCredits c], env.fs), .exited startBelowOneMsg)
      else
        (env.documents.foldl
            (processDocument env (env.data.output_format.getD "json")
              (env.data.start_page.getD 1) (env.data.end_page.getD 1))
            ([.chargeCredits c], env.fs),
          .completed) := by
  unfold TableExtractor.main
  rw [hv]

/-- C1: for every document set and every page range with `start_page` and
`end_page` set, `calculate_cost` returns exactly 7 times the sum over the
documents of `min(end_page, document.page_count) - start_page + 1`. -/
theorem calculate_cost_formula (data : AddOnData) (docs : List Document) (sp ep : Int)
    (hs : data.start_page = some sp) (he : data.end_page = some ep) :
    calculate_cost data docs =
      .ok (7 * (docs.map (fun d => min ep d.page_count - sp + 1)).sum) := by
  have h := calculate_cost_ok data docs ep he
  rw [hs] at h
  simp only [Option.getD_some] at h
  exact h

/-- Witness for C1: two documents, `start_page = 2`, `end_page = 5`. -/
theorem calculate_cost_formula_witness :
    calculate_cost ⟨none, some 2, some 5⟩ [⟨10, 3⟩, ⟨11, 9⟩] =
      .ok (7 * (([⟨10, 3⟩, ⟨11, 9⟩] : List Document).map
        (fun d => min 5 d.page_count - 2 + 1)).sum) :=
  calculate_cost_formula ⟨none, some 2, some 5⟩ [⟨10, 3⟩, ⟨11, 9⟩] 2 5 rfl rfl

/-- C5: for every table_data list, `convert_to_csv` returns exactly one row
`[page_number, row_index, column_index, content]` per cell (`cellRow`), in
table-then-cell order of the input, and the output row count equals the
total cell count across all tables. -/
theorem convert_to_csv_one_row_per_cell (table_data : List TableInfo) :
    convert_to_csv table_data =
      table_data.flatMap (fun t => t.cells.map (cellRow t)) ∧
    (convert_to_csv table_data).length =
      (table_data.map (fun t => t.cells.length)).sum := by
  refine ⟨convert_to_csv_eq_flatMap table_data, ?_⟩
  rw [convert_to_csv_eq_flatMap]
  induction table_data with
  | nil => rfl
  | cons t ts ih =>
      rw [List.flatMap_cons, List.length_append, List.length_map, List.map_cons,
        List.sum_cons, ih]

/-- C6: `calculate_cost` has no error path when `end_page` is set, but
faults when `end_page` is absent from the configuration and there is a
document whose page count the absent value (`None`) gets compared with. -/
theorem calculate_cost_faults_iff_end_page_absent (data : AddOnData) (docs : List Document) :
    (∀ ep, data.end_page = some ep → ∃ cost, calculate_cost data docs = .ok cost) ∧
    (data.end_page = none → docs ≠ [] →
      calculate_cost data docs = .error noneCompareError) := by
  constructor
  · intro ep he
    exact ⟨_, calculate_cost_ok data docs ep he⟩
  · intro hnone hne
    rcases docs with _ | ⟨d, ds⟩
    · exact absurd rfl hne
    · simp [calculate_cost, List.foldlM_cons, costStep, hnone, bind, Except.bind]

/-- Witness for C6: with `end_page = 3` the cost is computed, with
`end_page` absent and one document the computation faults. -/
theorem calculate_cost_faults_witness :
    (∃ cost, calculate_cost ⟨none, none, some 3⟩ [⟨1, 5⟩] = .ok cost) ∧
    calculate_cost ⟨none, none, none⟩ [⟨1, 5⟩] = .error noneCompareError :=
  ⟨(calculate_cost_faults_iff_end_page_absent ⟨none, none, some 3⟩ [⟨1, 5⟩]).1 3 rfl,
   (calculate_cost_faults_iff_end_page_absent ⟨none, none, none⟩ [⟨1, 5⟩]).2 rfl
     (by simp)⟩

/-- C7: serialising the accumulated table data the way
`json.dumps(table_data, indent=4)` does (key order and nesting of
src/main.py lines 62-74) and parsing the result back yields the structure
passed in. -/
theorem json_write_parse_roundtrip (table_data : List TableInfo) :
    jsonToTableData (tableDataToJson table_data) = some table_data := by
  simp only [tableDataToJson, jsonToTableData, mapM_jsonToTable]

/-- C4: once `validate` reaches the charge (documents selected, an
organization configured, cost computed), it returns `False` exactly when
`charge_credits` raises `ValueError` (insufficient funds) or `APIError`,
and returns `True` exactly when the charge succeeds. -/
theorem validate_false_iff_charge_fails (env : MainEnv) (c : Int)
    (hdc : env.document_count ≠ none)
    (horg : orgFalsy env.org_id = false)
    (hcost : calculate_cost env.data env.documents = .ok c) :
    ((validate env).2 = .returns false ↔
      (env.charge c = .valueError ∨ env.charge c = .apiError)) ∧
    ((validate env).2 = .returns true ↔ env.charge c = .ok) := by
  rw [validate_reached env c hdc horg hcost]
  rcases hch : env.charge c with _ | _ | _ <;> simp [hch]

/-- A small concrete environment whose charge always succeeds. -/
def envOkCharge : MainEnv :=
  ⟨⟨none, some 1, some 1⟩, some 1, some 5, [⟨1, 1⟩], fun _ => .ok, fun _ _ => ⟨[]⟩, []⟩

/-- Witness for C4: in `envOkCharge` the cost is 7, the charge succeeds,
and `validate` returns `True`. -/
theorem validate_false_iff_charge_fails_witness :
    ((validate envOkCharge).2 = .returns false ↔
      (envOkCharge.charge 7 = .valueError ∨ envOkCharge.charge 7 = .apiError)) ∧
    ((validate envOkCharge).2 = .returns true ↔ envOkCharge.charge 7 = .ok) :=
  validate_false_iff_charge_fails envOkCharge 7 (by decide) rfl rfl

theorem sum_neg_of_all_neg :
    ∀ (l : List Int), l ≠ [] → (∀ x ∈ l, x < 0) → l.sum < 0 := by
  intro l
  induction l with
  | nil => intro h _; exact absurd rfl h
  | cons x xs ih =>
      intro _ hall
      rw [List.sum_cons]
      have hx := hall x (List.mem_cons_self x xs)
      rcases xs with _ | ⟨y, ys⟩
      · simpa using hx
      · have hxs := ih (by simp) (fun z hz => hall z (List.mem_cons_of_mem _ hz))
        omega

/-- C9: whenever `end_page` is set and every selected document satisfies
`min(end_page, page_count) < start_page - 1`, `calculate_cost` returns a
negative integer, and `validate` passes exactly that negative value to
`charge_credits`. -/
theorem negative_cost_charged (env : MainEnv) (sp ep : Int)
    (hsp : env.data.start_page.getD 1 = sp)
    (hep : env.data.end_page = some ep)
    (hne : env.documents ≠ [])
    (hneg : ∀ d ∈ env.documents, min ep d.page_count < sp - 1)
    (hdc : env.document_count ≠ none)
    (horg : orgFalsy env.org_id = false) :
    ∃ c, calculate_cost env.data env.documents = .ok c ∧ c < 0 ∧
      (validate env).1 = [Event.chargeCredits c] := by
  have hc := calculate_cost_ok env.data env.documents ep hep
  rw [hsp] at hc
  refine ⟨_, hc, ?_, ?_⟩
  · have hs : ((env.documents.map (clampedPages sp ep))).sum < 0 := by
      refine sum_neg_of_all_neg _ (by simpa using hne) ?_
      intro x hx
      rcases List.mem_map.mp hx with ⟨d, hd, rfl⟩
      have := hneg d hd
      simp only [clampedPages]
      omega
    omega
  · rw [validate_reached env _ hdc horg hc]

/-- A concrete environment for C9: `start_page = 5`, `end_page = 2`, one
document of 1 page, so the cost is `7 * (1 - 5 + 1) = -21`. -/
def envNegCost : MainEnv :=
  ⟨⟨none, some 5, some 2⟩, some 1, some 5, [⟨1, 1⟩], fun _ => .ok, fun _ _ => ⟨[]⟩, []⟩

/-- Witness for C9 at `envNegCost`. -/
theorem negative_cost_charged_witness :
    ∃ c, calculate_cost envNegCost.data envNegCost.documents = .ok c ∧ c < 0 ∧
      (validate envNegCost).1 = [Event.chargeCredits c] :=
  negative_cost_charged envNegCost 5 2 rfl rfl (by decide) (by decide) (by decide) rfl

/-- A concrete environment with an inverted page range
(`start_page = 3 > end_page = 1`) and a charge that succeeds. -/
def envInverted : MainEnv :=
  ⟨⟨none, some 3, some 1⟩, some 1, some 5, [⟨7, 10⟩], fun _ => .ok, fun _ _ => ⟨[]⟩, []⟩

/-- Counterexample to C2 as stated: in `envInverted` we have
`end_page < start_page` and `main` does abort with the range message, but
only AFTER the cost-charging call has been made — `validate()` runs (and
charges) at src/main.py line 100, before the range check at line 106.  The
trace at the abort already contains the `charge_credits` call (here with
the cost `7 * (min(1, 10) - 3 + 1) = -7`). -/
theorem main_charges_before_range_check_cex :
    envInverted.data.end_page.getD 1 < envInverted.data.start_page.getD 1 ∧
    (TableExtractor.main envInverted).2 = .exited endBeforeStartMsg ∧
    (TableExtractor.main envInverted).1.1 = [Event.chargeCredits (-7)] := by
  refine ⟨by decide, rfl, rfl⟩

/-- C2 (amended): for every configuration where the effective
`end_page < start_page`, `main` makes no call to the external analyzer and
does not complete normally — but credits may already have been charged,
because `validate()` (which performs the charge) runs before the range
check. -/
theorem main_inverted_range_aborts_after_charge (env : MainEnv)
    (h : env.data.end_page.getD 1 < env.data.start_page.getD 1) :
    analyzeEvents (TableExtractor.main env).1.1 = [] ∧
    (TableExtractor.main env).2 ≠ Outcome.completed := by
  have hval := analyzeEvents_validate env
  rcases hv : validate env with ⟨vtrace, vres⟩
  rw [hv] at hval
  simp only at hval
  rcases vres with b | m | e
  · rcases b with _ | _
    · simp only [TableExtractor.main, hv]
      exact ⟨hval, fun hc => Outcome.noConfusion hc⟩
    · simp only [TableExtractor.main, hv, if_pos h]
      exact ⟨hval, fun hc => Outcome.noConfusion hc⟩
  · simp only [TableExtractor.main, hv]
    exact ⟨hval, fun hc => Outcome.noConfusion hc⟩
  · simp only [TableExtractor.main, hv]
    exact ⟨hval, fun hc => Outcome.noConfusion hc⟩

/-- Witness for the amended C2 at `envInverted`. -/
theorem main_inverted_range_aborts_witness :
    analyzeEvents (TableExtractor.main envInverted).1.1 = [] ∧
    (TableExtractor.main envInverted).2 ≠ Outcome.completed :=
  main_inverted_range_aborts_after_charge envInverted (by decide)

theorem docPages_nodup (sp ep : Int) (d : Document) : (docPages sp ep d).Nodup := by
  rw [docPages_eq]; exact pyRange_nodup _ _

theorem analyzeEvents_flatMap (docs : List Document) (pages : Document → List Int) :
    analyzeEvents (docs.flatMap (fun d => (pages d).map (fun p => Event.analyzePage d.id p))) =
      docs.flatMap (fun d => (pages d).map (fun p => (d.id, p))) := by
  induction docs with
  | nil => rfl
  | cons d ds ih =>
      rw [List.flatMap_cons, List.flatMap_cons, analyzeEvents_append,
        analyzeEvents_map_analyze, ih]

/-- C3: for every valid configuration (`1 ≤ start_page ≤ end_page`, with
`end_page` set so that `validate` can compute the cost) whose validation
and charge succeed, `main` submits for analysis exactly the pages of
`docPages` for each document, in document order; and for every document
that page list is exactly the integers from `start_page` to
`min(end_page, page_count)` inclusive, strictly increasing, with no page
repeated. -/
theorem main_analyzes_exact_clamped_pages (env : MainEnv) (sp ep c : Int)
    (hsp : env.data.start_page.getD 1 = sp)
    (hep : env.data.end_page = some ep)
    (h1 : 1 ≤ sp) (h2 : sp ≤ ep)
    (hdc : env.document_count ≠ none)
    (horg : orgFalsy env.org_id = false)
    (hcost : calculate_cost env.data env.documents = .ok c)
    (hch : env.charge c = .ok) :
    analyzeEvents (TableExtractor.main env).1.1 =
        env.documents.flatMap (fun d => (docPages sp ep d).map (fun p => (d.id, p))) ∧
    (∀ (d : Document) (p : Int),
        p ∈ docPages sp ep d ↔ sp ≤ p ∧ p ≤ min ep d.page_count) ∧
    (∀ d : Document, (docPages sp ep d).Pairwise (· < ·)) ∧
    (∀ d : Document, (docPages sp ep d).Nodup) := by
  have hv : validate env = ([.chargeCredits c], .returns true) := by
    rw [validate_reached env c hdc horg hcost, hch]
  have hmain := main_validate_true env c hv
  rw [hep] at hmain
  simp only [Option.getD_some, hsp] at hmain
  rw [if_neg (by omega), if_neg (by omega)] at hmain
  refine ⟨?_, fun d p => mem_docPages sp ep p d, fun d => docPages_pairwise sp ep d,
    fun d => docPages_nodup sp ep d⟩
  rw [hmain]
  simp only [foldl_processDocument_fst]
  rw [show ([Event.chargeCredits c] : List Event) ++
        env.documents.flatMap (fun d => (docPages sp ep d).map (fun p => Event.analyzePage d.id p)) =
      Event.chargeCredits c ::
        env.documents.flatMap (fun d => (docPages sp ep d).map (fun p => Event.analyzePage d.id p))
    from rfl]
  rw [analyzeEvents_charge, analyzeEvents_flatMap]

/-- A concrete environment for C3: `start_page = 1`, `end_page = 3`, two
documents of 2 and 5 pages, everything valid, charge succeeds. -/
def envTwoDocs : MainEnv :=
  ⟨⟨none, some 1, some 3⟩, some 1, some 5, [⟨1, 2⟩, ⟨2, 5⟩], fun _ => .ok,
    fun _ _ => ⟨[]⟩, []⟩

/-- Witness for C3 at `envTwoDocs` (cost `7 * (2 + 3) = 35`). -/
theorem main_analyzes_exact_clamped_pages_witness :
    analyzeEvents (TableExtractor.main envTwoDocs).1.1 =
        envTwoDocs.documents.flatMap (fun d => (docPages 1 3 d).map (fun p => (d.id, p))) ∧
    (∀ (d : Document) (p : Int),
        p ∈ docPages 1 3 d ↔ 1 ≤ p ∧ p ≤ min 3 d.page_count) ∧
    (∀ d : Document, (docPages 1 3 d).Pairwise (· < ·)) ∧
    (∀ d : Document, (docPages 1 3 d).Nodup) :=
  main_analyzes_exact_clamped_pages envTwoDocs 1 3 35 rfl rfl (by decide) (by decide)
    (by decide) (by decide) rfl rfl

/-- C10: for every document whose clamped page range is empty
(`min(end_page, page_count) < start_page`) under a valid configuration,
the per-document loop body of `main` visits no page (so makes no analyzer
call and appends no event to the trace), yet still writes the document's
output file: the empty JSON array for `output_format = "json"`, and — when
the CSV file is absent or empty — only the header row for
`output_format = "csv"`. -/
theorem empty_range_no_calls_still_writes (env : MainEnv) (sp ep : Int) (d : Document)
    (tr : List Event) (fs : Fs)
    (h1 : 1 ≤ sp) (h2 : sp ≤ ep) (hempty : min ep d.page_count < sp) :
    docPages sp ep d = [] ∧
    (processDocument env "json" sp ep (tr, fs) d).1 = tr ∧
    (processDocument env "json" sp ep (tr, fs) d).2 =
      fsSet fs ("tables-" ++ toString d.id ++ ".json") (.jsonFile (Json.arr [])) ∧
    (processDocument env "csv" sp ep (tr, fs) d).1 = tr ∧
    ((fsGet fs ("tables-" ++ toString d.id ++ ".csv") = none ∨
        fsGet fs ("tables-" ++ toString d.id ++ ".csv") = some (.csvFile [])) →
      (processDocument env "csv" sp ep (tr, fs) d).2 =
        fsSet fs ("tables-" ++ toString d.id ++ ".csv") (.csvFile [csvHeader])) := by
  have hp := docPages_empty sp ep d hempty
  have hjc : ("json" : String) ≠ "csv" := by decide
  have hcj : ("csv" : String) ≠ "json" := by decide
  refine ⟨hp, ?_, ?_, ?_, ?_⟩
  · rw [processDocument_fst, hp]; simp
  · simp only [processDocument, hp, List.flatMap_nil, tableDataToJson, List.map_nil,
      eq_self_iff_true, if_true, if_neg hjc]
  · rw [processDocument_fst, hp]; simp
  · intro hcase
    have hes : csvRows fs ("tables-" ++ toString d.id ++ ".csv") = [] := by
      rcases hcase with hc | hc <;> simp [csvRows, hc]
    simp only [processDocument, hp, List.flatMap_nil, if_neg hcj, eq_self_iff_true, if_true,
      hes]
    rfl

/-- Witness for C10: `start_page = 2`, `end_page = 3`, a single-page
document, empty trace and empty output directory. -/
theorem empty_range_no_calls_witness :
    docPages 2 3 (⟨9, 1⟩ : Document) = [] ∧
    (processDocument envTwoDocs "json" 2 3 ([], []) ⟨9, 1⟩).1 = [] ∧
    (processDocument envTwoDocs "json" 2 3 ([], []) ⟨9, 1⟩).2 =
      fsSet [] ("tables-" ++ toString (9 : Nat) ++ ".json") (.jsonFile (Json.arr [])) ∧
    (processDocument envTwoDocs "csv" 2 3 ([], []) ⟨9, 1⟩).1 = [] ∧
    ((fsGet [] ("tables-" ++ toString (9 : Nat) ++ ".csv") = none ∨
        fsGet [] ("tables-" ++ toString (9 : Nat) ++ ".csv") = some (.csvFile [])) →
      (processDocument envTwoDocs "csv" 2 3 ([], []) ⟨9, 1⟩).2 =
        fsSet [] ("tables-" ++ toString (9 : Nat) ++ ".csv") (.csvFile [csvHeader])) :=
  empty_range_no_calls_still_writes envTwoDocs 2 3 ⟨9, 1⟩ [] []
    (by decide) (by decide) (by decide)

theorem renderRow_ne_header (t : TableInfo) (cell : CellInfo) :
    renderRow (cellRow t cell) ≠ csvHeader := by
  intro h
  have h0 : Int.repr t.page_number = "Page Number" := by
    have h1 := congrArg (fun l : List String => l.headD "") h
    simpa [renderRow, cellRow, pyStr, csvHeader] using h1
  exact int_repr_ne_header _ h0

theorem header_notMem_rendered (td : List TableInfo) :
    ¬ csvHeader ∈ (convert_to_csv td).map renderRow := by
  intro h
  rcases List.mem_map.mp h with ⟨row, hrow, heq⟩
  rw [convert_to_csv_eq_flatMap] at hrow
  rcases List.mem_flatMap.mp hrow with ⟨t, ht, hmem⟩
  rcases List.mem_map.mp hmem with ⟨cell, hcell, rfl⟩
  exact renderRow_ne_header t cell heq

/-- C8: a CSV write appends — the previous rows are an unchanged initial
segment of the new rows, and when the file is not empty no header is added;
two runs starting from an empty file yield the header followed by both
runs' data rows, the header appearing exactly once. -/
theorem csv_append_only_single_header (existing : List (List String))
    (td td1 td2 : List TableInfo) :
    (∃ t, csvAppend existing td = existing ++ t) ∧
    (existing ≠ [] →
      csvAppend existing td = existing ++ (convert_to_csv td).map renderRow) ∧
    csvAppend (csvAppend [] td1) td2 =
      csvHeader :: ((convert_to_csv td1).map renderRow ++ (convert_to_csv td2).map renderRow) ∧
    (csvAppend (csvAppend [] td1) td2).count csvHeader = 1 := by
  have run2 : csvAppend (csvAppend [] td1) td2 =
      csvHeader :: ((convert_to_csv td1).map renderRow ++ (convert_to_csv td2).map renderRow) := by
    simp [csvAppend]
  refine ⟨⟨_, by rw [csvAppend, List.append_assoc]⟩, ?_, run2, ?_⟩
  · intro hne
    rw [csvAppend, if_neg (fun h => hne (List.isEmpty_iff.mp h)), List.append_nil]
  · rw [run2, List.count_cons_self]
    rw [List.count_eq_zero.mpr]
    intro hmem
    rcases List.mem_append.mp hmem with h | h
    · exact header_notMem_rendered td1 h
    · exact header_notMem_rendered td2 h

/-- Witness for C8's non-empty-file conjunct: appending to a file that
already has a header adds only the data rows. -/
theorem csv_append_only_single_header_witness :
    csvAppend [csvHeader] [⟨1, [⟨0, 0, "x"⟩]⟩] =
      [csvHeader] ++ (convert_to_csv [⟨1, [⟨0, 0, "x"⟩]⟩]).map renderRow :=
  (csv_append_only_single_header [csvHeader] [⟨1, [⟨0, 0, "x"⟩]⟩] [] []).2.1
    (by simp)
